import Mathlib

/-!
# Verification of the star-catalog query and caching backend

This development gives a shallow embedding, in Lean 4, of the core logic of
the backend: the two-tier cache (`backend/services/cache_service.py`), the
cache-key derivation for the cone endpoint (`backend/routes/stars_api.py`),
the coordinate conversions (`backend/services/gaia_service.py` and
`backend/scripts/download_gaia_catalog.py`), and the row semantics of the
catalog queries (`backend/services/local_catalog_service.py` and
`backend/services/gaia_service.py`).

Modelling conventions:
* Python floats are modelled as `ℚ` where the code does only field arithmetic
  and comparisons, and as `ℝ` where the code calls trigonometric functions.
* Timestamps (`time.time()`) are explicit `ℚ` arguments.
* The SQLite / network layers are external; their per-call behaviour is
  modelled by the SQL's row semantics (filter / sort / limit), and a possible
  raise of the durable-tier driver is modelled by an explicit `dbFail` flag.
  The geometric `CONTAINS(POINT, CIRCLE)` predicate of the remote ADQL server
  is a parameter of the cone query, since it is evaluated remotely.
* `SQRT(e) < c` comparisons and `ORDER BY SQRT(e)` from the SQL are embedded
  on the squares (`e < c^2`, ordering by `e`), which is order-equivalent for
  nonnegative bounds because `Real.sqrt` is monotone.
-/

namespace SpaceBackend

/-! ## Two-tier cache (`backend/services/cache_service.py`)

`CacheService` holds a volatile dict `memory_cache` and a durable SQLite
table `query_cache`.  Both map a key to a value together with the timestamp
of the write.  `get`/`set` wrap every durable-tier access in
`try/except`, so a raising driver can never propagate an exception; the
`dbFail` flag says whether the durable-tier driver raises during the call
(connection-level failure: the durable tier is then neither read nor
written).  The embedded `get`/`set` are total functions: by construction no
exception can escape them, which is the code's `except Exception` clause. -/

/-- One cache entry: a stored value plus the timestamp of the write
(the `{'value': ..., 'timestamp': ...}` dict / the SQLite row). -/
structure CEntry (V : Type) where
  value : V
  timestamp : ℚ
  deriving DecidableEq

/-- The mutable state of `CacheService`: the volatile tier (`memory_cache`)
and the durable tier (the `query_cache` SQLite table). -/
structure CacheState (K V : Type) where
  memory : K → Option (CEntry V)
  db : K → Option (CEntry V)

/-- The configuration read from `settings`: `CACHE_ENABLED` and
`CACHE_TTL_SECONDS`. -/
structure CacheConfig where
  enabled : Bool
  ttl : ℚ

variable {K V : Type} [DecidableEq K]

/-- The durable-tier part of `CacheService.get` (the `try` block over
SQLite): on a raising driver (`dbFail = true`) the exception is caught and
the function falls through to the final `return None`; otherwise a fresh row
is promoted into the volatile tier and returned, and an expired row is
deleted from the durable tier. -/
def CacheService.getDb (cfg : CacheConfig) (dbFail : Bool)
    (s : CacheState K V) (k : K) (now : ℚ) : Option V × CacheState K V :=
  if dbFail then (none, s)
  else
    match s.db k with
    | some e =>
      if now - e.timestamp < cfg.ttl then
        (some e.value, { s with memory := Function.update s.memory k (some e) })
      else
        (none, { s with db := Function.update s.db k none })
    | none => (none, s)

/-- `CacheService.get`: volatile tier first (hit iff `age < ttl`; an expired
volatile entry is deleted), then the durable tier via `getDb`. -/
def CacheService.get (cfg : CacheConfig) (dbFail : Bool)
    (s : CacheState K V) (k : K) (now : ℚ) : Option V × CacheState K V :=
  if cfg.enabled = false then (none, s)
  else
    match s.memory k with
    | some e =>
      if now - e.timestamp < cfg.ttl then (some e.value, s)
      else
        CacheService.getDb cfg dbFail
          { s with memory := Function.update s.memory k none } k now
    | none => CacheService.getDb cfg dbFail s k now

/-- `CacheService.set`: unconditionally overwrite the volatile tier with the
current timestamp; then `INSERT OR REPLACE` into the durable tier inside
`try/except` (skipped when the driver raises). -/
def CacheService.set (cfg : CacheConfig) (dbFail : Bool)
    (s : CacheState K V) (k : K) (v : V) (now : ℚ) : CacheState K V :=
  if cfg.enabled = false then s
  else
    let s1 : CacheState K V :=
      { s with memory := Function.update s.memory k (some ⟨v, now⟩) }
    if dbFail then s1
    else { s1 with db := Function.update s1.db k (some ⟨v, now⟩) }

/-! ## Cache-key derivation (`CacheService._generate_key` and the cone
endpoint `query_cone` in `backend/routes/stars_api.py`)

`_generate_key(query_params)` is `sha256(json.dumps(query_params,
sort_keys=True))`.  `json.dumps` with `sort_keys=True` is modelled at the
level of its abstract syntax: a dict is an association list of string keys
and JSON scalar values, and `dumps` sorts the entries by key.  The SHA-256
digest itself is external (`hashlib`); it is a parameter `h` of the key
derivation, assumed nothing for the determinism direction and assumed
injective (collision-free) for the separation direction. -/

/-- A JSON scalar as produced by `json.dumps` for the values of the cone
cache-key dict: a float, an int, or a string (the printed forms of these
three classes never coincide). -/
inductive JVal where
  | num (q : ℚ)
  | int (n : ℤ)
  | str (s : String)
  deriving DecidableEq

/-- Code-point lexicographic order on character lists (the order Python's
`sorted` uses on strings). -/
def charListLt : List Char → List Char → Bool
  | [], [] => false
  | [], _ :: _ => true
  | _ :: _, [] => false
  | a :: as, b :: bs =>
    if a.toNat < b.toNat then true
    else if b.toNat < a.toNat then false
    else charListLt as bs

/-- `s ≤ t` in code-point lexicographic order. -/
def strLe (s t : String) : Bool := !(charListLt t.data s.data)

/-- Insert a `(key, value)` pair into an assoc list sorted by key
(ascending lexicographic string order). -/
def jsonInsert (x : String × JVal) : List (String × JVal) → List (String × JVal)
  | [] => [x]
  | y :: ys => if strLe x.1 y.1 then x :: y :: ys else y :: jsonInsert x ys

/-- `json.dumps(d, sort_keys=True)` at AST level: the entries of the dict,
sorted by key. -/
def jsonDumpsSorted : List (String × JVal) → List (String × JVal)
  | [] => []
  | x :: xs => jsonInsert x (jsonDumpsSorted xs)

/-- Python's `round(q, prec)`: scale by `10^prec`, round half to even,
scale back. -/
def pyRound (prec : ℕ) (q : ℚ) : ℚ :=
  let scaled : ℚ := q * (10 : ℚ) ^ prec
  let f : ℤ := ⌊scaled⌋
  let r : ℚ := scaled - f
  let n : ℤ :=
    if r < 1 / 2 then f
    else if 1 / 2 < r then f + 1
    else if f % 2 = 0 then f else f + 1
  (n : ℚ) / (10 : ℚ) ^ prec

/-- The validated body of `POST /api/stars/cone` (`ConeQueryParams`). -/
structure ConeQueryParams where
  ra : ℚ
  dec : ℚ
  radius : ℚ
  max_stars : ℤ
  min_magnitude : ℚ
  deriving DecidableEq

/-- The `cache_key` dict built by `query_cone` (`stars_api.py` lines
192–199): `ra`, `dec`, `radius` rounded to 4 decimal places; `max_stars`
and `min_mag` taken as is; a constant `type` tag.  Entries are listed in
the dict-literal insertion order of the source. -/
def coneCacheDict (p : ConeQueryParams) : List (String × JVal) :=
  [("type", JVal.str "cone"),
   ("ra", JVal.num (pyRound 4 p.ra)),
   ("dec", JVal.num (pyRound 4 p.dec)),
   ("radius", JVal.num (pyRound 4 p.radius)),
   ("max_stars", JVal.int p.max_stars),
   ("min_mag", JVal.num p.min_magnitude)]

/-- `CacheService._generate_key` for the cone endpoint: hash (`h`, the
external SHA-256 hexdigest) of the key-sorted serialization of the
cache-key dict. -/
def generate_key {D : Type} (h : List (String × JVal) → D)
    (p : ConeQueryParams) : D :=
  h (jsonDumpsSorted (coneCacheDict p))

/-- The GET `/api/stars/region` cache key
`f"stars:region:{ra:.2f}:{dec:.2f}:{radius:.2f}:{limit}"`: the `:.2f`
format rounds to 2 decimal places; the formatted string determines and is
determined by this tuple of rounded fields. -/
structure RegionKey where
  ra2 : ℚ
  dec2 : ℚ
  radius2 : ℚ
  limit : ℤ
  deriving DecidableEq

/-- Build the region cache key from the raw query parameters. -/
def regionKey (ra dec radius : ℚ) (limit : ℤ) : RegionKey :=
  ⟨pyRound 2 ra, pyRound 2 dec, pyRound 2 radius, limit⟩

/-! ## Coordinate math (`backend/services/gaia_service.py`)

The trigonometric conversions use `numpy`; they are embedded over `ℝ` with
exact real trigonometry (the idealization of the float computation). -/

open Real in
/-- `np.radians`: degrees to radians. -/
noncomputable def radians (d : ℝ) : ℝ := d * π / 180

open Real in
/-- `np.degrees`: radians to degrees. -/
noncomputable def degrees (r : ℝ) : ℝ := r * 180 / π

open Real in
/-- `np.arctan2 y x`: the angle in `(-π, π]` of the point `(x, y)`, with
`arctan2 0 0 = 0`. -/
noncomputable def arctan2 (y x : ℝ) : ℝ :=
  if 0 < x then arctan (y / x)
  else if x < 0 then
    (if 0 ≤ y then arctan (y / x) + π else arctan (y / x) - π)
  else
    (if 0 < y then π / 2 else if y < 0 then -(π / 2) else 0)

open Real in
/-- `GaiaService._equatorial_to_cartesian` (lines 358–379): the projection
`(d·cos dec·cos ra, d·cos dec·sin ra, d·sin dec)` with angles in degrees.
The function performs no input validation. -/
noncomputable def equatorial_to_cartesian (ra_deg dec_deg distance_pc : ℝ) :
    ℝ × ℝ × ℝ :=
  (distance_pc * cos (radians dec_deg) * cos (radians ra_deg),
   distance_pc * cos (radians dec_deg) * sin (radians ra_deg),
   distance_pc * sin (radians dec_deg))

open Real in
/-- `GaiaService._cartesian_to_equatorial` (lines 381–397): distance from
the norm, `ra` from `arctan2` mapped into `[0, 360)`, `dec` from `arcsin`;
the origin maps to `(0, 0)`. -/
noncomputable def cartesian_to_equatorial (x y z : ℝ) : ℝ × ℝ :=
  let distance := Real.sqrt (x ^ 2 + y ^ 2 + z ^ 2)
  if distance = 0 then (0, 0)
  else
    let ra0 := degrees (arctan2 y x)
    let ra := if ra0 < 0 then ra0 + 360 else ra0
    (ra, degrees (arcsin (z / distance)))

open Real in
/-- The Cartesian conversion of `download_bright_catalog`
(`backend/scripts/download_gaia_catalog.py` lines 79–84): note that the
`sin dec` term is assigned to `y` and the `cos dec · sin ra` term to `z`. -/
noncomputable def download_xyz (ra_deg dec_deg distance_pc : ℝ) :
    ℝ × ℝ × ℝ :=
  (distance_pc * cos (radians dec_deg) * cos (radians ra_deg),
   distance_pc * sin (radians dec_deg),
   distance_pc * cos (radians dec_deg) * sin (radians ra_deg))

/-- `GaiaService._parallax_to_distance`: `1000/parallax` clamped to
`[0.1, 100000]`, with a default of `1000` for a null or nonpositive
parallax. -/
def parallax_to_distance (parallax_mas : Option ℚ) : ℚ :=
  match parallax_mas with
  | none => 1000
  | some p => if p ≤ 0 then 1000 else max 0.1 (min (1000 / p) 100000)

/-- `GaiaService._bp_rp_to_rgb`: piecewise-linear colour mapping on the
normalized BP−RP index. -/
def bp_rp_to_rgb (bp_rp : ℚ) : ℚ × ℚ × ℚ :=
  let normalized0 : ℚ := (bp_rp + 0.5) / 4.5
  let normalized : ℚ := max 0 (min 1 normalized0)
  if normalized < 0.2 then
    (0.6 + normalized * 2, 0.7 + normalized * 1.5, 1)
  else if normalized < 0.5 then
    (1, 1, 1 - (normalized - 0.2) * 2)
  else if normalized < 0.7 then
    (1, 1 - (normalized - 0.5) * 1.5, 0.4)
  else
    (1, 0.6 - (normalized - 0.7) * 1, 0.3)

/-- `LocalCatalogService._bp_rp_to_rgb`: banded constant colour mapping. -/
def local_bp_rp_to_rgb (bp_rp0 : ℚ) : ℚ × ℚ × ℚ :=
  let bp_rp : ℚ := max (-0.5) (min 4 bp_rp0)
  if bp_rp < 0 then (0.6, 0.7, 1)
  else if bp_rp < 0.5 then (0.8, 0.9, 1)
  else if bp_rp < 1 then (1, 1, 1)
  else if bp_rp < 1.5 then (1, 0.95, 0.7)
  else if bp_rp < 2.5 then (1, 0.8, 0.5)
  else (1, 0.6, 0.4)

/-! ## Catalog rows and query row-semantics

`GaiaRow` is a row of the remote `gaiadr3.gaia_source` table as selected by
the cone ADQL; `LocalRow` is a row of the local SQLite `stars` table built
by `download_gaia_catalog.py`.  Nullable columns are `Option ℚ`. -/

/-- A row returned by the cone ADQL query (`_query_cone_sync`). -/
structure GaiaRow where
  source_id : ℤ
  ra : ℚ
  dec : ℚ
  parallax : Option ℚ
  pmra : Option ℚ
  pmdec : Option ℚ
  phot_g_mean_mag : ℚ
  bp_rp : Option ℚ
  radial_velocity : Option ℚ
  temperature : Option ℚ
  deriving DecidableEq

/-- The star dict built per row by `_query_cone_sync`; `x`, `y`, `z` come
from the trigonometric projection and live in `ℝ`. -/
structure GaiaStar where
  source_id : ℤ
  ra : ℚ
  dec : ℚ
  x : ℝ
  y : ℝ
  z : ℝ
  parallax : Option ℚ
  distance_pc : ℚ
  magnitude : ℚ
  color_bp_rp : Option ℚ
  r : ℚ
  g : ℚ
  b : ℚ
  pm_ra : ℚ
  pm_dec : ℚ
  radial_velocity : Option ℚ
  temperature : Option ℚ

/-- The per-row conversion of `_query_cone_sync` (lines 113–155): distance
from parallax, Cartesian position from the projection, RGB from BP−RP
(defaulting to `0`), proper motion defaulting to `0`. -/
noncomputable def gaiaRowToStar (row : GaiaRow) : GaiaStar :=
  let distance_pc := parallax_to_distance row.parallax
  let xyz := equatorial_to_cartesian (row.ra : ℝ) (row.dec : ℝ) (distance_pc : ℝ)
  let rgb := bp_rp_to_rgb (row.bp_rp.getD 0)
  { source_id := row.source_id
    ra := row.ra
    dec := row.dec
    x := xyz.1
    y := xyz.2.1
    z := xyz.2.2
    parallax := row.parallax
    distance_pc := distance_pc
    magnitude := row.phot_g_mean_mag
    color_bp_rp := row.bp_rp
    r := rgb.1
    g := rgb.2.1
    b := rgb.2.2
    pm_ra := row.pmra.getD 0
    pm_dec := row.pmdec.getD 0
    radial_velocity := row.radial_velocity
    temperature := row.temperature }

/-- The `ORDER BY phot_g_mean_mag ASC` sort order of the cone ADQL. -/
def gaiaMagLe (a b : GaiaRow) : Prop :=
  a.phot_g_mean_mag ≤ b.phot_g_mean_mag

instance : DecidableRel gaiaMagLe := fun a b =>
  inferInstanceAs (Decidable (a.phot_g_mean_mag ≤ b.phot_g_mean_mag))

/-- `GaiaService._query_cone_sync`: row semantics of
`SELECT TOP max_stars ... WHERE CONTAINS(POINT(ra,dec), CIRCLE(ra₀,dec₀,r))
AND phot_g_mean_mag < min_magnitude ORDER BY phot_g_mean_mag ASC`,
followed by the per-row dict conversion.  The geometric `CONTAINS`
predicate is evaluated by the remote ADQL server and is the parameter
`contains` (applied to the centre, the radius and the row). -/
noncomputable def query_cone (contains : ℝ → ℝ → ℝ → GaiaRow → Bool)
    (catalog : List GaiaRow) (ra dec radius_deg : ℝ) (max_stars : ℕ)
    (min_magnitude : ℚ) : List GaiaStar :=
  ((((catalog.filter fun row =>
        contains ra dec radius_deg row ∧ row.phot_g_mean_mag < min_magnitude
     ).insertionSort gaiaMagLe).take max_stars).map gaiaRowToStar)

/-- `GaiaService.query_frustum_async`: converts the view direction to
equatorial coordinates, derives the cone radius `fov · 0.75` and the
magnitude limit `min(20, 15 + log10(max_distance/100))`, and delegates to
the cone query.  `np.log10` is external float math, the parameter `log10`;
the camera position is ignored by the source as well. -/
noncomputable def query_frustum (contains : ℝ → ℝ → ℝ → GaiaRow → Bool)
    (log10 : ℚ → ℚ) (catalog : List GaiaRow)
    (camera_position camera_direction : ℝ × ℝ × ℝ) (fov_deg : ℚ)
    (max_distance : ℚ) (max_stars : ℕ) : List GaiaStar :=
  let radec := cartesian_to_equatorial camera_direction.1 camera_direction.2.1
    camera_direction.2.2
  let radius_deg : ℝ := (fov_deg : ℝ) * 0.75
  let mag_limit : ℚ := min 20 (15 + log10 (max_distance / 100))
  query_cone contains catalog radec.1 radec.2 radius_deg max_stars mag_limit

/-- A row of the local SQLite `stars` table. -/
structure LocalRow where
  source_id : ℤ
  ra : ℚ
  dec : ℚ
  x : ℚ
  y : ℚ
  z : ℚ
  parallax : Option ℚ
  distance_pc : ℚ
  magnitude : ℚ
  bp_rp : Option ℚ
  pmra : Option ℚ
  pmdec : Option ℚ
  radial_velocity : Option ℚ
  temperature : Option ℚ
  deriving DecidableEq

/-- The star dict built per row by `_query_nearby_stars_sync`
(lines 106–130).  Python truthiness (`if row['parallax']`) maps both `NULL`
and `0` to the default. -/
structure LocalStar where
  source_id : ℤ
  ra : ℚ
  dec : ℚ
  x : ℚ
  y : ℚ
  z : ℚ
  parallax : Option ℚ
  distance_pc : ℚ
  magnitude : ℚ
  color_bp_rp : ℚ
  r : ℚ
  g : ℚ
  b : ℚ
  pm_ra : ℚ
  pm_dec : ℚ
  radial_velocity : Option ℚ
  temperature : Option ℚ
  deriving DecidableEq

/-- Python truthiness of a nullable float: `NULL` and `0` are falsy. -/
def truthyOr0 (v : Option ℚ) : Option ℚ :=
  match v with
  | none => none
  | some q => if q = 0 then none else some q

/-- The per-row conversion of `_query_nearby_stars_sync`. -/
def localRowToStar (row : LocalRow) : LocalStar :=
  let bp_rp := row.bp_rp.getD 0
  let rgb := local_bp_rp_to_rgb bp_rp
  { source_id := row.source_id
    ra := row.ra
    dec := row.dec
    x := row.x
    y := row.y
    z := row.z
    parallax := truthyOr0 row.parallax
    distance_pc := row.distance_pc
    magnitude := row.magnitude
    color_bp_rp := bp_rp
    r := rgb.1
    g := rgb.2.1
    b := rgb.2.2
    pm_ra := (truthyOr0 row.pmra).getD 0
    pm_dec := (truthyOr0 row.pmdec).getD 0
    radial_velocity := truthyOr0 row.radial_velocity
    temperature := truthyOr0 row.temperature }

/-- The squared Euclidean distance of a local row from the camera
(the argument of the SQL `SQRT`). -/
def rowDistSq (cx cy cz : ℚ) (row : LocalRow) : ℚ :=
  (row.x - cx) * (row.x - cx) + (row.y - cy) * (row.y - cy) +
    (row.z - cz) * (row.z - cz)

/-- The `ORDER BY distance_from_camera ASC, magnitude ASC` sort order of
the local query, expressed on squared distances (`SQRT` is strictly
monotone, so the induced order is the same). -/
def localRowLe (cx cy cz : ℚ) (a b : LocalRow) : Prop :=
  rowDistSq cx cy cz a < rowDistSq cx cy cz b ∨
    (rowDistSq cx cy cz a = rowDistSq cx cy cz b ∧ a.magnitude ≤ b.magnitude)

instance (cx cy cz : ℚ) : DecidableRel (localRowLe cx cy cz) := fun a b =>
  inferInstanceAs (Decidable (_ ∨ _ ∧ _))

/-- `LocalCatalogService._query_nearby_stars_sync`: row semantics of
`SELECT ... WHERE magnitude < ? HAVING distance_from_camera < ?
ORDER BY distance_from_camera ASC, magnitude ASC LIMIT ?`, followed by the
per-row dict conversion.  The `SQRT(...) < max_distance` comparison is
embedded as `rowDistSq < max_distance²` (equivalent for the nonnegative
bounds the handler passes).  Note that stock SQLite rejects a `HAVING`
clause on a non-aggregate query, in which case the method's
`except Exception` branch returns `[]`; the embedding captures the
written SQL's row semantics, and every theorem below about this query also
holds of the constant-`[]` reading. -/
def query_nearby_stars (catalog : List LocalRow) (cx cy cz : ℚ)
    (max_distance : ℚ) (max_stars : ℕ) (mag_limit : ℚ) : List LocalStar :=
  ((((catalog.filter fun row =>
        row.magnitude < mag_limit ∧
          rowDistSq cx cy cz row < max_distance * max_distance
     ).insertionSort (localRowLe cx cy cz)).take max_stars).map localRowToStar)

/-- The GET `/api/stars/region` handler (`stars_api.py` lines 37–90): look
up the cache under the request-derived key (Python truthiness also treats a
cached empty list as a miss), otherwise query the local catalog — always
from the origin with `max_distance = 1000`, `mag_limit = 12` and the
default `max_stars = 50000`, whatever the request parameters — and cache
the result.  Returns the star list, the `cached` flag, and the updated
cache state. -/
def query_region_handler (cfg : CacheConfig) (dbFail : Bool)
    (s : CacheState RegionKey (List LocalStar)) (catalog : List LocalRow)
    (ra dec radius : ℚ) (limit : ℤ) (now : ℚ) :
    (List LocalStar × Bool) × CacheState RegionKey (List LocalStar) :=
  let key := regionKey ra dec radius limit
  let g := CacheService.get cfg dbFail s key now
  let miss := fun (s' : CacheState RegionKey (List LocalStar)) =>
    let stars := query_nearby_stars catalog 0 0 0 1000 50000 12
    ((stars, false), CacheService.set cfg dbFail s' key stars now)
  match g.1 with
  | some v => if v = [] then miss g.2 else ((v, true), g.2)
  | none => miss g.2

/-- Squared Euclidean distance of a returned star from the query origin
(the conversion copies `x`, `y`, `z` verbatim from the row). -/
def starDistSq (cx cy cz : ℚ) (s : LocalStar) : ℚ :=
  (s.x - cx) * (s.x - cx) + (s.y - cy) * (s.y - cy) + (s.z - cz) * (s.z - cz)

/-- The adjacent-pair ordering property claimed of query results: each
adjacent pair is nondecreasing in the distance measure `d`, with the
magnitude measure `m` breaking ties. -/
def distMagOrdered {α : Type} (d m : α → ℚ) (l : List α) : Prop :=
  l.Chain' fun p q => d p ≤ d q ∨ (d p = d q ∧ m p ≤ m q)

/-- A catalog row at parallax 10 mas (distance 100 pc), magnitude 5. -/
def gaiaRowFarBright : GaiaRow :=
  ⟨1, 266.4, -29, some 10, none, none, 5, none, none, none⟩

/-- A catalog row at parallax 100 mas (distance 10 pc), magnitude 6. -/
def gaiaRowNearFaint : GaiaRow :=
  ⟨2, 266.4, -29, some 100, none, none, 6, none, none, none⟩

instance (cx cy cz : ℚ) : IsTotal LocalRow (localRowLe cx cy cz) where
  total a b := by
    rcases lt_trichotomy (rowDistSq cx cy cz a) (rowDistSq cx cy cz b) with
      h | h | h
    · exact Or.inl (Or.inl h)
    · rcases le_total a.magnitude b.magnitude with hm | hm
      · exact Or.inl (Or.inr ⟨h, hm⟩)
      · exact Or.inr (Or.inr ⟨h.symm, hm⟩)
    · exact Or.inr (Or.inl h)

instance (cx cy cz : ℚ) : IsTrans LocalRow (localRowLe cx cy cz) where
  trans a b c hab hbc := by
    rcases hab with h1 | ⟨h1, hm1⟩ <;> rcases hbc with h2 | ⟨h2, hm2⟩
    · exact Or.inl (h1.trans h2)
    · exact Or.inl (lt_of_lt_of_le h1 (le_of_eq h2))
    · exact Or.inl (lt_of_le_of_lt (le_of_eq h1) h2)
    · exact Or.inr ⟨h1.trans h2, hm1.trans hm2⟩

instance : IsTotal GaiaRow gaiaMagLe where
  total a b := le_total _ _

instance : IsTrans GaiaRow gaiaMagLe where
  trans _ _ _ hab hbc := le_trans hab hbc

/-! ## Theorems -/

/-- C2: Cache TTL idempotence.  With the cache enabled, after
`set(q, v)` at time `t` (the durable write succeeding), a `get(q)` at any
time `t'` returns `v` when `t' - t < TTL` and returns absent (`None`) when
`t' - t ≥ TTL` — whether or not the durable tier fails during the read. -/
theorem cache_ttl_idempotence {K V : Type} [DecidableEq K] {P : Type}
    (cfg : CacheConfig) (genKey : P → K) (dbFailGet : Bool)
    (s : CacheState K V) (q : P) (v : V) (t t' : ℚ)
    (henabled : cfg.enabled = true) :
    (t' - t < cfg.ttl →
      (CacheService.get cfg dbFailGet
        (CacheService.set cfg false s (genKey q) v t) (genKey q) t').1 =
        some v) ∧
    (cfg.ttl ≤ t' - t →
      (CacheService.get cfg dbFailGet
        (CacheService.set cfg false s (genKey q) v t) (genKey q) t').1 =
        none) := by
  have hset :
      CacheService.set cfg false s (genKey q) v t =
        { memory := Function.update s.memory (genKey q) (some ⟨v, t⟩),
          db := Function.update s.db (genKey q) (some ⟨v, t⟩) } := by
    simp [CacheService.set, henabled]
  constructor
  · intro hfresh
    simp [hset, CacheService.get, henabled, hfresh]
  · intro hstale
    have hnot : ¬ t' - t < cfg.ttl := not_lt.mpr hstale
    simp [hset, CacheService.get, henabled, hnot, CacheService.getDb]
    cases dbFailGet with
    | true => simp
    | false => simp [hnot]

/-- Witness for C2 at a concrete instance: key `0 : ℕ`, value `5 : ℕ`,
an empty initial cache, `TTL = 3600`, write at `t = 0`, reads at
`t' = 10` (fresh) and `t' = 3600` (expired). -/
theorem cache_ttl_idempotence_witness :
    (CacheService.get ⟨true, 3600⟩ false
      (CacheService.set ⟨true, 3600⟩ false
        ⟨fun _ => none, fun _ => none⟩ (0 : ℕ) (5 : ℕ) 0) 0 10).1 =
      some 5 ∧
    (CacheService.get ⟨true, 3600⟩ false
      (CacheService.set ⟨true, 3600⟩ false
        ⟨fun _ => none, fun _ => none⟩ (0 : ℕ) (5 : ℕ) 0) 0 3600).1 =
      none := by
  refine ⟨?_, ?_⟩
  · exact (cache_ttl_idempotence ⟨true, 3600⟩ (id : ℕ → ℕ) false
      ⟨fun _ => none, fun _ => none⟩ 0 5 0 10 rfl).1 (by norm_num)
  · exact (cache_ttl_idempotence ⟨true, 3600⟩ (id : ℕ → ℕ) false
      ⟨fun _ => none, fun _ => none⟩ 0 5 0 3600 rfl).2 (by norm_num)

/-- C3: Two-tier `get` with promotion.  (1) A fresh volatile entry is
returned unchanged (fast path, durable tier not consulted, so any `dbFail`);
(2) when the volatile entry is absent or expired and the durable tier holds
a fresh entry, that entry's value is returned and the entry is promoted
into the volatile tier; (3) when the durable entry is expired, it is
deleted from the durable tier and `get` returns absent. -/
theorem cache_two_tier_get_promotion {K V : Type} [DecidableEq K] :
    (∀ (cfg : CacheConfig) (dbFail : Bool) (s : CacheState K V) (k : K)
        (now : ℚ) (e : CEntry V),
      cfg.enabled = true → s.memory k = some e →
      now - e.timestamp < cfg.ttl →
      CacheService.get cfg dbFail s k now = (some e.value, s)) ∧
    (∀ (cfg : CacheConfig) (s : CacheState K V) (k : K) (now : ℚ)
        (e : CEntry V),
      cfg.enabled = true →
      (s.memory k = none ∨
        ∃ e0, s.memory k = some e0 ∧ cfg.ttl ≤ now - e0.timestamp) →
      s.db k = some e → now - e.timestamp < cfg.ttl →
      (CacheService.get cfg false s k now).1 = some e.value ∧
      ((CacheService.get cfg false s k now).2).memory k = some e) ∧
    (∀ (cfg : CacheConfig) (s : CacheState K V) (k : K) (now : ℚ)
        (e : CEntry V),
      cfg.enabled = true →
      (s.memory k = none ∨
        ∃ e0, s.memory k = some e0 ∧ cfg.ttl ≤ now - e0.timestamp) →
      s.db k = some e → cfg.ttl ≤ now - e.timestamp →
      (CacheService.get cfg false s k now).1 = none ∧
      ((CacheService.get cfg false s k now).2).db k = none) := by
  refine ⟨?_, ?_, ?_⟩
  · intro cfg dbFail s k now e hen hm hfresh
    simp [CacheService.get, hen, hm, hfresh]
  · intro cfg s k now e hen hmem hdb hfresh
    rcases hmem with hm | ⟨e0, hm, hstale⟩
    · simp [CacheService.get, hen, hm, CacheService.getDb, hdb, hfresh]
    · have hnot : ¬ now - e0.timestamp < cfg.ttl := not_lt.mpr hstale
      simp [CacheService.get, hen, hm, hnot, CacheService.getDb, hdb, hfresh]
  · intro cfg s k now e hen hmem hdb hstale
    have hnot : ¬ now - e.timestamp < cfg.ttl := not_lt.mpr hstale
    rcases hmem with hm | ⟨e0, hm, hstale0⟩
    · simp [CacheService.get, hen, hm, CacheService.getDb, hdb, hnot]
    · have hnot0 : ¬ now - e0.timestamp < cfg.ttl := not_lt.mpr hstale0
      simp [CacheService.get, hen, hm, hnot0, CacheService.getDb, hdb, hnot]

/-- Witness for C3: the three branches at concrete states with
`TTL = 3600`, key `0 : ℕ`: a fresh volatile entry `⟨5, 0⟩` read at `10`;
an empty volatile tier over a fresh durable entry `⟨7, 0⟩` (promoted);
and an expired durable entry `⟨7, 0⟩` read at `3600` (deleted). -/
theorem cache_two_tier_get_promotion_witness :
    (CacheService.get ⟨true, 3600⟩ true
      (⟨fun _ => some ⟨5, 0⟩, fun _ => none⟩ : CacheState ℕ ℕ) 0 10 =
      (some 5, ⟨fun _ => some ⟨5, 0⟩, fun _ => none⟩)) ∧
    ((CacheService.get ⟨true, 3600⟩ false
        (⟨fun _ => none, fun _ => some ⟨7, 0⟩⟩ : CacheState ℕ ℕ) 0 10).1 =
      some 7 ∧
     ((CacheService.get ⟨true, 3600⟩ false
        (⟨fun _ => none, fun _ => some ⟨7, 0⟩⟩ : CacheState ℕ ℕ) 0 10).2).memory
        0 = some ⟨7, 0⟩) ∧
    ((CacheService.get ⟨true, 3600⟩ false
        (⟨fun _ => none, fun _ => some ⟨7, 0⟩⟩ : CacheState ℕ ℕ) 0 3600).1 =
      none ∧
     ((CacheService.get ⟨true, 3600⟩ false
        (⟨fun _ => none, fun _ => some ⟨7, 0⟩⟩ : CacheState ℕ ℕ) 0 3600).2).db
        0 = none) := by
  refine ⟨?_, ?_, ?_⟩
  · exact cache_two_tier_get_promotion.1 ⟨true, 3600⟩ true _ 0 10 ⟨5, 0⟩
      rfl rfl (by norm_num)
  · exact cache_two_tier_get_promotion.2.1 ⟨true, 3600⟩ _ 0 10 ⟨7, 0⟩
      rfl (Or.inl rfl) rfl (by norm_num)
  · exact cache_two_tier_get_promotion.2.2 ⟨true, 3600⟩ _ 0 3600 ⟨7, 0⟩
      rfl (Or.inl rfl) rfl (by norm_num)

/-- C7: Durable-tier fault tolerance.  `get` and `set` are total functions
even when every durable-tier operation raises (`dbFail = true`): the
`except` clauses keep the exception from the caller by construction.
Then (1) `set` still records the entry in the volatile tier and leaves the
durable tier untouched; (2) a fresh volatile entry is still served by
`get`; (3) with no fresh volatile entry, `get` degrades to a cache miss
(absent) and leaves the durable tier untouched. -/
theorem cache_durable_fault_tolerance {K V : Type} [DecidableEq K] :
    (∀ (cfg : CacheConfig) (s : CacheState K V) (k : K) (v : V) (now : ℚ),
      cfg.enabled = true →
      (CacheService.set cfg true s k v now).memory k = some ⟨v, now⟩ ∧
      (CacheService.set cfg true s k v now).db = s.db) ∧
    (∀ (cfg : CacheConfig) (s : CacheState K V) (k : K) (now : ℚ)
        (e : CEntry V),
      cfg.enabled = true → s.memory k = some e →
      now - e.timestamp < cfg.ttl →
      (CacheService.get cfg true s k now).1 = some e.value) ∧
    (∀ (cfg : CacheConfig) (s : CacheState K V) (k : K) (now : ℚ),
      cfg.enabled = true →
      (∀ e, s.memory k = some e → cfg.ttl ≤ now - e.timestamp) →
      (CacheService.get cfg true s k now).1 = none ∧
      ((CacheService.get cfg true s k now).2).db = s.db) := by
  refine ⟨?_, ?_, ?_⟩
  · intro cfg s k v now hen
    simp [CacheService.set, hen]
  · intro cfg s k now e hen hm hfresh
    simp [CacheService.get, hen, hm, hfresh]
  · intro cfg s k now hen hnofresh
    cases hm : s.memory k with
    | none => simp [CacheService.get, hen, hm, CacheService.getDb]
    | some e =>
      have hnot : ¬ now - e.timestamp < cfg.ttl :=
        not_lt.mpr (hnofresh e hm)
      simp [CacheService.get, hen, hm, hnot, CacheService.getDb]

/-- Witness for C7: concrete failing-durable-tier `set` and `get` with
`TTL = 3600`, key `0 : ℕ`. -/
theorem cache_durable_fault_tolerance_witness :
    ((CacheService.set ⟨true, 3600⟩ true
        (⟨fun _ => none, fun _ => some ⟨9, 0⟩⟩ : CacheState ℕ ℕ) 0 5 0).memory
        0 = some ⟨5, 0⟩ ∧
     (CacheService.set ⟨true, 3600⟩ true
        (⟨fun _ => none, fun _ => some ⟨9, 0⟩⟩ : CacheState ℕ ℕ) 0 5 0).db =
        (fun _ => some ⟨9, 0⟩)) ∧
    ((CacheService.get ⟨true, 3600⟩ true
        (⟨fun _ => some ⟨5, 0⟩, fun _ => none⟩ : CacheState ℕ ℕ) 0 10).1 =
      some 5) ∧
    ((CacheService.get ⟨true, 3600⟩ true
        (⟨fun _ => none, fun _ => some ⟨9, 0⟩⟩ : CacheState ℕ ℕ) 0 10).1 =
        none ∧
     ((CacheService.get ⟨true, 3600⟩ true
        (⟨fun _ => none, fun _ => some ⟨9, 0⟩⟩ : CacheState ℕ ℕ) 0 10).2).db =
        (fun _ => some ⟨9, 0⟩)) := by
  refine ⟨?_, ?_, ?_⟩
  · exact cache_durable_fault_tolerance.1 ⟨true, 3600⟩ _ 0 5 0 rfl
  · exact cache_durable_fault_tolerance.2.1 ⟨true, 3600⟩ _ 0 10 ⟨5, 0⟩
      rfl rfl (by norm_num)
  · exact cache_durable_fault_tolerance.2.2 ⟨true, 3600⟩ _ 0 10 rfl
      (fun e he => by cases he)

/-- Evaluation rule for `pyRound` when the fractional part of the scaled
value is below one half (the floor branch). -/
theorem pyRound_eq_of_floor {prec : ℕ} {q : ℚ} {f : ℤ}
    (hfl : ⌊q * (10 : ℚ) ^ prec⌋ = f)
    (hr : q * (10 : ℚ) ^ prec - (f : ℚ) < 1 / 2) :
    pyRound prec q = (f : ℚ) / (10 : ℚ) ^ prec := by
  simp only [pyRound, hfl]
  rw [if_pos hr]

/-- `round(266.4, 4) = 266.4`. -/
theorem pyRound4_ra_center : pyRound 4 (266.4 : ℚ) = 266.4 := by
  rw [pyRound_eq_of_floor (f := 2664000) (by norm_num) (by norm_num)]
  norm_num

/-- `round(-29, 4) = -29`. -/
theorem pyRound4_dec_center : pyRound 4 (-29 : ℚ) = -29 := by
  rw [pyRound_eq_of_floor (f := -290000) (by norm_num) (by norm_num)]
  norm_num

/-- `round(5.000001, 4) = 5`. -/
theorem pyRound4_r1 : pyRound 4 (5.000001 : ℚ) = 5 := by
  rw [pyRound_eq_of_floor (f := 50000) (by norm_num) (by norm_num)]
  norm_num

/-- `round(5.000002, 4) = 5`. -/
theorem pyRound4_r2 : pyRound 4 (5.000002 : ℚ) = 5 := by
  rw [pyRound_eq_of_floor (f := 50000) (by norm_num) (by norm_num)]
  norm_num

/-- `round(5, 4) = 5`. -/
theorem pyRound4_r5 : pyRound 4 (5 : ℚ) = 5 := by
  rw [pyRound_eq_of_floor (f := 50000) (by norm_num) (by norm_num)]
  norm_num

/-- `round(5.5, 4) = 5.5`. -/
theorem pyRound4_r55 : pyRound 4 (5.5 : ℚ) = 5.5 := by
  rw [pyRound_eq_of_floor (f := 55000) (by norm_num) (by norm_num)]
  norm_num

/-- The key-sorted serialization of the cone cache dict, computed: entries
in ascending key order `dec, max_stars, min_mag, ra, radius, type`. -/
theorem jsonDumpsSorted_coneCacheDict (p : ConeQueryParams) :
    jsonDumpsSorted (coneCacheDict p) =
      [("dec", JVal.num (pyRound 4 p.dec)),
       ("max_stars", JVal.int p.max_stars),
       ("min_mag", JVal.num p.min_magnitude),
       ("ra", JVal.num (pyRound 4 p.ra)),
       ("radius", JVal.num (pyRound 4 p.radius)),
       ("type", JVal.str "cone")] := rfl

/-- The sorted serialization determines the cache dict. -/
theorem coneCacheDict_eq_of_dumps_eq {p1 p2 : ConeQueryParams}
    (hd : jsonDumpsSorted (coneCacheDict p1) =
      jsonDumpsSorted (coneCacheDict p2)) :
    coneCacheDict p1 = coneCacheDict p2 := by
  rw [jsonDumpsSorted_coneCacheDict, jsonDumpsSorted_coneCacheDict] at hd
  simp only [List.cons.injEq, Prod.mk.injEq, JVal.num.injEq, JVal.int.injEq,
    true_and, and_true] at hd
  obtain ⟨hdec, hms, hmm, hra, hradius⟩ := hd
  simp [coneCacheDict, hdec, hms, hmm, hra, hradius]

/-- C1: Cache-key derivation is canonical for the cone endpoint.  Two
parameter sets whose rounded cache-key dicts coincide always get the same
digest; and, provided the digest function (SHA-256 over the canonical
serialization) is injective, two rounded dicts that differ in any field get
different digests. -/
theorem cone_cache_key_canonical {D : Type}
    (h : List (String × JVal) → D) (p1 p2 : ConeQueryParams) :
    (coneCacheDict p1 = coneCacheDict p2 →
      generate_key h p1 = generate_key h p2) ∧
    (Function.Injective h → coneCacheDict p1 ≠ coneCacheDict p2 →
      generate_key h p1 ≠ generate_key h p2) := by
  constructor
  · intro he
    simp [generate_key, he]
  · intro hinj hne hkey
    exact hne (coneCacheDict_eq_of_dumps_eq (hinj hkey))

/-- Witness for C1, with the digest modelled by the identity on the
canonical serialization: radius `5.000001` and `5.000002` round to the same
4-decimal value and collide, while radius `5.0` and `5.5` separate. -/
theorem cone_cache_key_canonical_witness :
    generate_key (fun l => l) ⟨266.4, -29, 5.000001, 10000, 18⟩ =
      generate_key (fun l => l) ⟨266.4, -29, 5.000002, 10000, 18⟩ ∧
    generate_key (fun l => l) ⟨266.4, -29, 5, 10000, 18⟩ ≠
      generate_key (fun l => l) ⟨266.4, -29, 5.5, 10000, 18⟩ := by
  constructor
  · exact (cone_cache_key_canonical (fun l => l) _ _).1
      (by simp [coneCacheDict, pyRound4_r1, pyRound4_r2])
  · exact (cone_cache_key_canonical (fun l => l) _ _).2
      (fun a b hab => hab)
      (by simp only [coneCacheDict, pyRound4_r5, pyRound4_r55,
            List.cons.injEq, Prod.mk.injEq, JVal.num.injEq, ne_eq]
          norm_num)

/-- The conversion preserves the squared camera distance. -/
theorem starDistSq_localRowToStar (cx cy cz : ℚ) (r : LocalRow) :
    starDistSq cx cy cz (localRowToStar r) = rowDistSq cx cy cz r := rfl

/-- C4 (counterexample): as stated, the ordering claim fails for Cone
results.  A two-row catalog whose brighter row (magnitude 5, parallax
10 mas, hence distance 100 pc) lies farther than its fainter row
(magnitude 6, parallax 100 mas, hence distance 10 pc) is returned in
magnitude order `[far-bright, near-faint]`, whose single adjacent pair has
strictly decreasing distance with untied distances. -/
theorem cone_ordering_counterexample :
    ¬ distMagOrdered (fun s => s.distance_pc) (fun s => s.magnitude)
      (query_cone (fun _ _ _ _ => true) [gaiaRowFarBright, gaiaRowNearFaint]
        266.4 (-29) 5 10 20) := by
  have hfar : parallax_to_distance (some 10) = 100 := by
    norm_num [parallax_to_distance, min_def, max_def]
  have hnear : parallax_to_distance (some 100) = 10 := by
    norm_num [parallax_to_distance, min_def, max_def]
  have hq : query_cone (fun _ _ _ _ => true)
      [gaiaRowFarBright, gaiaRowNearFaint] 266.4 (-29) 5 10 20 =
      [gaiaRowToStar gaiaRowFarBright, gaiaRowToStar gaiaRowNearFaint] := by
    norm_num [query_cone, gaiaMagLe, gaiaRowFarBright, gaiaRowNearFaint,
      List.insertionSort, List.orderedInsert, List.filter]
  rw [distMagOrdered, hq]
  intro hchain
  have hpair := List.chain'_cons.mp hchain
  rcases hpair.1 with hle | ⟨heq, -⟩
  · rw [show (gaiaRowToStar gaiaRowFarBright).distance_pc =
        parallax_to_distance (some 10) from rfl,
      show (gaiaRowToStar gaiaRowNearFaint).distance_pc =
        parallax_to_distance (some 100) from rfl, hfar, hnear] at hle
    norm_num at hle
  · rw [show (gaiaRowToStar gaiaRowFarBright).distance_pc =
        parallax_to_distance (some 10) from rfl,
      show (gaiaRowToStar gaiaRowNearFaint).distance_pc =
        parallax_to_distance (some 100) from rfl, hfar, hnear] at heq
    norm_num at heq

/-- C4 (amended): Region results satisfy the claimed adjacent-pair order —
nondecreasing camera distance (equivalently, squared distance), magnitude
breaking ties — as produced by `ORDER BY distance_from_camera ASC,
magnitude ASC`; Cone results instead satisfy adjacent-pair order by
nondecreasing magnitude only (`ORDER BY phot_g_mean_mag ASC`), their
distances being unconstrained. -/
theorem query_result_ordering :
    (∀ (catalog : List LocalRow) (cx cy cz maxDist : ℚ) (max_stars : ℕ)
        (magLim : ℚ),
      distMagOrdered (starDistSq cx cy cz) (fun s => s.magnitude)
        (query_nearby_stars catalog cx cy cz maxDist max_stars magLim)) ∧
    (∀ (contains : ℝ → ℝ → ℝ → GaiaRow → Bool) (catalog : List GaiaRow)
        (ra dec radius_deg : ℝ) (max_stars : ℕ) (min_magnitude : ℚ),
      (query_cone contains catalog ra dec radius_deg max_stars
          min_magnitude).Chain'
        fun p q => p.magnitude ≤ q.magnitude) := by
  constructor
  · intro catalog cx cy cz maxDist max_stars magLim
    apply List.Pairwise.chain'
    rw [query_nearby_stars, List.pairwise_map]
    have hsorted :
        List.Pairwise (localRowLe cx cy cz)
          ((catalog.filter fun row =>
              row.magnitude < magLim ∧
                rowDistSq cx cy cz row < maxDist * maxDist
            ).insertionSort (localRowLe cx cy cz)) :=
      List.sorted_insertionSort _ _
    have htake := List.Pairwise.sublist (List.take_sublist max_stars _) hsorted
    refine htake.imp fun hab => ?_
    rcases hab with h | ⟨h, hm⟩
    · exact Or.inl (le_of_lt (by
        rwa [starDistSq_localRowToStar, starDistSq_localRowToStar]))
    · exact Or.inr ⟨by rwa [starDistSq_localRowToStar,
        starDistSq_localRowToStar], hm⟩
  · intro contains catalog ra dec radius_deg max_stars min_magnitude
    apply List.Pairwise.chain'
    rw [query_cone, List.pairwise_map]
    have hsorted :
        List.Pairwise gaiaMagLe
          ((catalog.filter fun row =>
              contains ra dec radius_deg row ∧
                row.phot_g_mean_mag < min_magnitude
            ).insertionSort gaiaMagLe) :=
      List.sorted_insertionSort _ _
    have htake := List.Pairwise.sublist (List.take_sublist max_stars _) hsorted
    exact htake.imp fun hab => hab

/-- C5: the hard cap — Cone, Frustum and Region queries never return more
than the requested `max_stars` points (`SELECT TOP`, delegation, and
`LIMIT` respectively). -/
theorem query_max_count_cap :
    (∀ (contains : ℝ → ℝ → ℝ → GaiaRow → Bool) (catalog : List GaiaRow)
        (ra dec radius_deg : ℝ) (max_stars : ℕ) (min_magnitude : ℚ),
      (query_cone contains catalog ra dec radius_deg max_stars
        min_magnitude).length ≤ max_stars) ∧
    (∀ (contains : ℝ → ℝ → ℝ → GaiaRow → Bool) (log10 : ℚ → ℚ)
        (catalog : List GaiaRow) (camera_position camera_direction : ℝ × ℝ × ℝ)
        (fov_deg max_distance : ℚ) (max_stars : ℕ),
      (query_frustum contains log10 catalog camera_position camera_direction
        fov_deg max_distance max_stars).length ≤ max_stars) ∧
    (∀ (catalog : List LocalRow) (cx cy cz max_distance : ℚ) (max_stars : ℕ)
        (mag_limit : ℚ),
      (query_nearby_stars catalog cx cy cz max_distance max_stars
        mag_limit).length ≤ max_stars) := by
  refine ⟨?_, ?_, ?_⟩
  · intro contains catalog ra dec radius_deg max_stars min_magnitude
    rw [query_cone, List.length_map, List.length_take]
    exact min_le_left _ _
  · intro contains log10 catalog camera_position camera_direction fov_deg
      max_distance max_stars
    rw [query_frustum, query_cone, List.length_map, List.length_take]
    exact min_le_left _ _
  · intro catalog cx cy cz max_distance max_stars mag_limit
    rw [query_nearby_stars, List.length_map, List.length_take]
    exact min_le_left _ _

/-- `arctan2` is invariant under scaling both arguments by a positive
factor. -/
theorem arctan2_pos_smul {c y x : ℝ} (hc : 0 < c) :
    arctan2 (c * y) (c * x) = arctan2 y x := by
  have hgt : ∀ t : ℝ, (0 < c * t) = (0 < t) := fun t => by
    rw [eq_iff_iff]
    exact ⟨fun h => by nlinarith, fun h => mul_pos hc h⟩
  have hlt : ∀ t : ℝ, (c * t < 0) = (t < 0) := fun t => by
    rw [eq_iff_iff]
    exact ⟨fun h => by nlinarith, fun h => mul_neg_of_pos_of_neg hc h⟩
  have hle : (0 ≤ c * y) = (0 ≤ y) := by
    rw [eq_iff_iff]
    exact ⟨fun h => by nlinarith, fun h => mul_nonneg hc.le h⟩
  have hdiv : c * y / (c * x) = y / x := mul_div_mul_left y x (ne_of_gt hc)
  simp only [arctan2, hgt, hlt, hle, hdiv]

open Real in
/-- `arctan2 (sin θ) (cos θ) = θ` on the principal range `(-π, π]`. -/
theorem arctan2_sin_cos {θ : ℝ} (h1 : -π < θ) (h2 : θ ≤ π) :
    arctan2 (sin θ) (cos θ) = θ := by
  have hpi := pi_pos
  rcases lt_trichotomy (cos θ) 0 with hc | hc | hc
  · rcases le_or_lt 0 (sin θ) with hs | hs
    · have hθ : π / 2 < θ := by
        by_contra hle
        push_neg at hle
        rcases le_or_lt (-(π / 2)) θ with hge | hlt
        · exact absurd (cos_nonneg_of_mem_Icc ⟨hge, hle⟩) (not_le.mpr hc)
        · have : sin θ < 0 := sin_neg_of_neg_of_neg_pi_lt (by linarith) h1
          linarith
      simp only [arctan2]
      rw [if_neg (by linarith), if_pos hc, if_pos hs,
        ← tan_eq_sin_div_cos, ← tan_sub_pi,
        arctan_tan (by linarith) (by linarith)]
      ring
    · have hθ : θ < -(π / 2) := by
        by_contra hle
        push_neg at hle
        rcases le_or_lt θ (π / 2) with hle2 | hgt
        · exact absurd (cos_nonneg_of_mem_Icc ⟨hle, hle2⟩) (not_le.mpr hc)
        · have : 0 ≤ sin θ := sin_nonneg_of_nonneg_of_le_pi (by linarith) h2
          linarith
      simp only [arctan2]
      rw [if_neg (by linarith), if_pos hc, if_neg (not_le.mpr hs),
        ← tan_eq_sin_div_cos, ← tan_add_pi,
        arctan_tan (by linarith) (by linarith)]
      ring
  · rcases cos_eq_zero_iff.mp hc with ⟨k, hk⟩
    have hk0 : k = 0 ∨ k = -1 := by
      rcases lt_trichotomy k 0 with hkneg | hkz | hkpos
      · right
        by_contra hne
        have hk2 : k ≤ -2 := by omega
        have hcast : (k : ℝ) ≤ -2 := by exact_mod_cast hk2
        rw [hk] at h1
        nlinarith
      · exact Or.inl hkz
      · exfalso
        have hcast : (1 : ℝ) ≤ (k : ℝ) := by exact_mod_cast hkpos
        rw [hk] at h2
        nlinarith
    rcases hk0 with rfl | rfl
    · have hθ : θ = π / 2 := by rw [hk]; norm_num
      subst hθ
      rw [sin_pi_div_two, cos_pi_div_two]
      simp [arctan2]
    · have hθ : θ = -(π / 2) := by rw [hk]; push_cast; ring
      subst hθ
      rw [cos_neg, cos_pi_div_two, sin_neg, sin_pi_div_two]
      simp only [arctan2]
      rw [if_neg (lt_irrefl 0), if_neg (lt_irrefl 0),
        if_neg (by norm_num : ¬ (0:ℝ) < -1), if_pos (by norm_num : (-1:ℝ) < 0)]
  · have hθ1 : -(π / 2) < θ := by
      by_contra hle
      push_neg at hle
      have : cos θ ≤ 0 := by
        rw [← cos_neg]
        exact cos_nonpos_of_pi_div_two_le_of_le (by linarith) (by linarith)
      linarith
    have hθ2 : θ < π / 2 := by
      by_contra hle
      push_neg at hle
      have : cos θ ≤ 0 :=
        cos_nonpos_of_pi_div_two_le_of_le hle (by linarith)
      linarith
    simp only [arctan2]
    rw [if_pos hc, ← tan_eq_sin_div_cos, arctan_tan hθ1 hθ2]

open Real in
/-- Supporting result for the coordinate round trip: in exact real
arithmetic the round trip is the identity for every `d > 0`,
`ra ∈ [0, 360)` and `dec` strictly inside `(-90, 90)`.  The poles
`dec = ±90` are deliberately excluded: there the exact-real model and the
program's float64 arithmetic part ways (exactly, `cos (radians 90) = 0`
and the `x`, `y` components vanish, while in IEEE doubles
`cos(radians(90.0)) ≈ 6.12e-17 ≠ 0` and `arctan2` still recovers `ra`), so
the boundary behaviour is decided by floating-point rounding that a
real-valued embedding does not capture. -/
theorem equatorial_round_trip (ra dec d : ℝ) (hd : 0 < d) (hra0 : 0 ≤ ra)
    (hra : ra < 360) (hdec1 : -90 < dec) (hdec2 : dec < 90) :
    cartesian_to_equatorial (equatorial_to_cartesian ra dec d).1
      (equatorial_to_cartesian ra dec d).2.1
      (equatorial_to_cartesian ra dec d).2.2 = (ra, dec) := by
  have hpi := pi_pos
  have he : equatorial_to_cartesian ra dec d =
      (d * cos (radians dec) * cos (radians ra),
       d * cos (radians dec) * sin (radians ra),
       d * sin (radians dec)) := rfl
  rw [he]
  set θr := radians ra with hθr
  set θd := radians dec with hθd
  have hθd1 : -(π / 2) < θd := by
    rw [hθd, radians]
    have h1 : (-90 : ℝ) * π < dec * π := by nlinarith
    linarith
  have hθd2 : θd < π / 2 := by
    rw [hθd, radians]
    have h1 : dec * π < 90 * π := by nlinarith
    linarith
  have hθr0 : 0 ≤ θr := by
    rw [hθr, radians]
    have h1 : 0 ≤ ra * π := mul_nonneg hra0 hpi.le
    linarith
  have hθr2 : θr < 2 * π := by
    rw [hθr, radians]
    have h1 : ra * π < 360 * π := by nlinarith
    linarith
  have hcosd : 0 < cos θd := cos_pos_of_mem_Ioo ⟨hθd1, hθd2⟩
  have hc : 0 < d * cos θd := mul_pos hd hcosd
  have hne : d ≠ 0 := ne_of_gt hd
  have hnorm :
      (d * cos θd * cos θr) ^ 2 + (d * cos θd * sin θr) ^ 2 +
        (d * sin θd) ^ 2 = d ^ 2 := by
    have hpyth1 := sin_sq_add_cos_sq θr
    have hpyth2 := sin_sq_add_cos_sq θd
    calc (d * cos θd * cos θr) ^ 2 + (d * cos θd * sin θr) ^ 2 +
          (d * sin θd) ^ 2
        = d ^ 2 * ((cos θd) ^ 2 * ((sin θr) ^ 2 + (cos θr) ^ 2) +
            (sin θd) ^ 2) := by ring
      _ = d ^ 2 * ((cos θd) ^ 2 * 1 + (sin θd) ^ 2) := by rw [hpyth1]
      _ = d ^ 2 * ((sin θd) ^ 2 + (cos θd) ^ 2) := by ring
      _ = d ^ 2 * 1 := by rw [hpyth2]
      _ = d ^ 2 := by ring
  have hsqrt :
      Real.sqrt ((d * cos θd * cos θr) ^ 2 + (d * cos θd * sin θr) ^ 2 +
        (d * sin θd) ^ 2) = d := by
    rw [hnorm]
    exact Real.sqrt_sq hd.le
  simp only [cartesian_to_equatorial]
  rw [hsqrt, if_neg hne]
  have hdecpart : degrees (arcsin (d * sin θd / d)) = dec := by
    rw [mul_div_cancel_left₀ _ hne, arcsin_sin hθd1.le hθd2.le, hθd,
      radians, degrees]
    field_simp
  have harct : arctan2 (d * cos θd * sin θr) (d * cos θd * cos θr) =
      arctan2 (sin θr) (cos θr) := arctan2_pos_smul hc
  rcases le_or_lt θr π with hθrle | hθrgt
  · have h180 : arctan2 (sin θr) (cos θr) = θr :=
      arctan2_sin_cos (by linarith) hθrle
    have hdeg : degrees θr = ra := by
      rw [hθr, radians, degrees]
      field_simp
    have hnotneg : ¬ degrees θr < 0 := by
      rw [hdeg]
      exact not_lt.mpr hra0
    rw [harct, h180, if_neg hnotneg, hdeg, hdecpart]
  · have hshift : arctan2 (sin θr) (cos θr) = θr - 2 * π := by
      rw [← sin_sub_two_pi θr, ← cos_sub_two_pi θr]
      exact arctan2_sin_cos (by linarith) (by linarith)
    have hdeg : degrees (θr - 2 * π) = ra - 360 := by
      rw [hθr, radians, degrees]
      field_simp
      ring
    have hneg : degrees (θr - 2 * π) < 0 := by
      rw [hdeg]
      linarith
    rw [harct, hshift, if_pos hneg, hdeg, hdecpart]
    norm_num

/-- Concrete instance of `equatorial_round_trip` at
`(ra, dec, d) = (0, 0, 1)`. -/
theorem equatorial_round_trip_witness :
    (0 : ℝ) < 1 ∧ (0 : ℝ) ≤ 0 ∧ (0 : ℝ) < 360 ∧ (-90 : ℝ) < 0 ∧
      (0 : ℝ) < 90 ∧
      cartesian_to_equatorial (equatorial_to_cartesian 0 0 1).1
        (equatorial_to_cartesian 0 0 1).2.1
        (equatorial_to_cartesian 0 0 1).2.2 = (0, 0) :=
  ⟨by norm_num, by norm_num, by norm_num, by norm_num, by norm_num,
   equatorial_round_trip 0 0 1 (by norm_num) (by norm_num) (by norm_num)
     (by norm_num) (by norm_num)⟩

/-- C8 (counterexample): `_equatorial_to_cartesian` performs no input
validation — at the negative distance `-1` (with `ra = dec = 0`) it returns
the Cartesian triple `(-1, 0, 0)` instead of failing. -/
theorem equatorial_to_cartesian_no_rejection :
    equatorial_to_cartesian 0 0 (-1) = (-1, 0, 0) := by
  norm_num [equatorial_to_cartesian, radians]

/-- C8 (amended): for every `distance < 0` the conversion, far from
rejecting the input, returns the negation of the triple computed at
`|distance|` (the antipodal point at the mirrored distance). -/
theorem equatorial_to_cartesian_negative_distance (ra dec d : ℝ)
    (hd : d < 0) :
    equatorial_to_cartesian ra dec d =
      (-(equatorial_to_cartesian ra dec (-d)).1,
       -(equatorial_to_cartesian ra dec (-d)).2.1,
       -(equatorial_to_cartesian ra dec (-d)).2.2) := by
  simp only [equatorial_to_cartesian, Prod.mk.injEq]
  refine ⟨by ring, by ring, by ring⟩

/-- Witness for C8 (amended) at `(ra, dec, d) = (0, 0, -1)`. -/
theorem equatorial_to_cartesian_negative_distance_witness :
    (-1 : ℝ) < 0 ∧
      equatorial_to_cartesian 0 0 (-1) =
        (-(equatorial_to_cartesian 0 0 (-(-1))).1,
         -(equatorial_to_cartesian 0 0 (-(-1))).2.1,
         -(equatorial_to_cartesian 0 0 (-(-1))).2.2) :=
  ⟨by norm_num,
   equatorial_to_cartesian_negative_distance 0 0 (-1) (by norm_num)⟩

open Real in
/-- C9 (counterexample): the two equatorial-to-Cartesian conversions do not
implement the same convention.  At `(ra, dec, d) = (0, 90, 1)` the query
service returns `(0, 0, 1)` (the `sin dec` term on `z`) while the
catalog-build script returns `(0, 1, 0)` (the `sin dec` term on `y`). -/
theorem projection_convention_counterexample :
    download_xyz 0 90 1 ≠ equatorial_to_cartesian 0 90 1 := by
  have hrad : radians 90 = π / 2 := by rw [radians]; ring
  have hdl : (download_xyz 0 90 1).2.1 = 1 := by
    simp [download_xyz, hrad, sin_pi_div_two]
  have hsv : (equatorial_to_cartesian 0 90 1).2.1 = 0 := by
    simp [equatorial_to_cartesian, radians]
  intro h
  rw [h, hsv] at hdl
  norm_num at hdl

/-- C9 (amended): the script's conversion is the query service's conversion
with the `y` and `z` axes swapped — they agree on `x` and only there; the
declination-dependent `sin dec` term sits on `z` in the service and on `y`
in the script. -/
theorem projection_convention_swap (ra dec d : ℝ) :
    download_xyz ra dec d =
      ((equatorial_to_cartesian ra dec d).1,
       (equatorial_to_cartesian ra dec d).2.2,
       (equatorial_to_cartesian ra dec d).2.1) := rfl

/-- C10: Region-endpoint parameter noninterference.  For any two validated
`/api/stars/region` requests that differ in `ra`, `dec`, `radius` or
`limit`, evaluated over the same catalog and a cache with no entry for
either derived key, the computed (uncached) star lists coincide: the
handler always queries the catalog from the origin with `max_distance =
1000`, `mag_limit = 12` and the default cap, so only the cache key depends
on the request parameters. -/
theorem region_endpoint_noninterference (cfg : CacheConfig) (dbFail : Bool)
    (s : CacheState RegionKey (List LocalStar)) (catalog : List LocalRow)
    (ra1 dec1 radius1 : ℚ) (limit1 : ℤ) (ra2 dec2 radius2 : ℚ)
    (limit2 : ℤ) (now : ℚ)
    (hv1 : 0 ≤ ra1 ∧ ra1 ≤ 360 ∧ -90 ≤ dec1 ∧ dec1 ≤ 90 ∧ 0 < radius1 ∧
      radius1 ≤ 30 ∧ 1 ≤ limit1 ∧ limit1 ≤ 50000)
    (hv2 : 0 ≤ ra2 ∧ ra2 ≤ 360 ∧ -90 ≤ dec2 ∧ dec2 ≤ 90 ∧ 0 < radius2 ∧
      radius2 ≤ 30 ∧ 1 ≤ limit2 ∧ limit2 ≤ 50000)
    (hdiff : ra1 ≠ ra2 ∨ dec1 ≠ dec2 ∨ radius1 ≠ radius2 ∨ limit1 ≠ limit2)
    (hmiss1 : (CacheService.get cfg dbFail s
      (regionKey ra1 dec1 radius1 limit1) now).1 = none)
    (hmiss2 : (CacheService.get cfg dbFail s
      (regionKey ra2 dec2 radius2 limit2) now).1 = none) :
    (query_region_handler cfg dbFail s catalog ra1 dec1 radius1 limit1
      now).1.1 =
    (query_region_handler cfg dbFail s catalog ra2 dec2 radius2 limit2
      now).1.1 := by
  simp only [query_region_handler, hmiss1, hmiss2]

/-- Witness for C10: two different validated requests over an empty cache
and an empty catalog produce the same (empty) uncached star list. -/
theorem region_endpoint_noninterference_witness :
    (query_region_handler ⟨true, 3600⟩ false ⟨fun _ => none, fun _ => none⟩
      [] 10 20 5 100 0).1.1 =
    (query_region_handler ⟨true, 3600⟩ false ⟨fun _ => none, fun _ => none⟩
      [] 30 (-40) 2 50 0).1.1 :=
  region_endpoint_noninterference ⟨true, 3600⟩ false
    ⟨fun _ => none, fun _ => none⟩ [] 10 20 5 100 30 (-40) 2 50 0
    (by norm_num) (by norm_num) (Or.inl (by norm_num)) rfl rfl

end SpaceBackend
